import Mathlib

/-!
# Verification of the build-orchestration core

Shallow embedding of the build-orchestration subsystem of the
Digital-Portfolio backend, together with proofs of its specified
properties.

Embedded modules:
* `backend/app/services/planning_engine.py` — task types, task graph,
  plan creation and section inference;
* `backend/app/services/virtual_filesystem.py` — the per-build
  versioned in-memory file store with snapshot/rollback;
* `backend/app/services/build_orchestrator.py` — build state,
  task execution, retry and regenerate operations.

Modelling conventions:
* Python dicts are modelled as functions into `Option` (for stores keyed
  by arbitrary strings) or as structures (for dicts with a fixed key
  vocabulary, where an absent key is identified with the field default);
* timestamps (`datetime` fields) and emitted events are not part of any
  verified property and are omitted from the state;
* the asynchronous generation worker is a parameter: a function from the
  task and the current file map to a `WorkerResult`, modelling one call.
-/

namespace DigitalPortfolio

/-- `TaskType` enum from `planning_engine.py`. -/
inductive TaskType where
  | SETUP
  | SECTION
  | STYLE
  | FINALIZE
deriving DecidableEq, Repr

/-- `TaskStatus` enum from `planning_engine.py`. -/
inductive TaskStatus where
  | PENDING
  | RUNNING
  | COMPLETED
  | FAILED
  | SKIPPED
deriving DecidableEq, Repr

/-- The resume-data dictionary, restricted to the keys the planning
engine and section-context extraction actually read.  An absent key is
identified with the empty default, matching Python truthiness checks
`resume_data.get(k)`. -/
structure ResumeData where
  name : String := ""
  headline : String := ""
  summary : String := ""
  highlights : List String := []
  skills : List String := []
  work_experience : List String := []
  projects : List String := []
  education : List String := []
  email : String := ""
  phone : String := ""
  linkedin : String := ""
  github : String := ""
  website : String := ""
deriving DecidableEq, Repr

/-- A task's `context` dict, restricted to the keys the code ever
stores (`style`, `section_id`, `resume_data`, `user_instruction`);
`none` in an outer `Option` means the key is absent.  The value stored
under `resume_data` is itself optional in the source (`None` is a
legal value), hence the nested `Option`. -/
structure TaskContext where
  style : Option String := none
  section_id : Option String := none
  resume_data : Option (Option ResumeData) := none
  user_instruction : Option String := none
deriving DecidableEq, Repr

/-- `BuildTask` dataclass from `planning_engine.py` (timestamps omitted). -/
structure BuildTask where
  id : String
  type : TaskType
  name : String := ""
  description : String := ""
  depends_on : List String := []
  status : TaskStatus := TaskStatus.PENDING
  context : TaskContext := {}
  output_files : List String := []
  error : Option String := none
deriving DecidableEq, Repr

/-- `TaskGraph` dataclass from `planning_engine.py` (`created_at` omitted). -/
structure TaskGraph where
  build_id : String
  tasks : List BuildTask
deriving DecidableEq, Repr

/-- `TaskGraph.get_task`: first task in the list with the given id, if any. -/
def TaskGraph.get_task (g : TaskGraph) (task_id : String) : Option BuildTask :=
  g.tasks.find? (fun t => t.id == task_id)

/-- The readiness test used by `TaskGraph.get_ready_tasks`: the task is
pending and every dependency id resolves (via `get_task`) to a task whose
status is completed. -/
def TaskGraph.ready (g : TaskGraph) (t : BuildTask) : Bool :=
  (t.status == TaskStatus.PENDING) &&
    t.depends_on.all (fun dep_id =>
      match g.get_task dep_id with
      | some dep => dep.status == TaskStatus.COMPLETED
      | none => false)

/-- `TaskGraph.get_ready_tasks` from `planning_engine.py`. -/
def TaskGraph.get_ready_tasks (g : TaskGraph) : List BuildTask :=
  g.tasks.filter (fun t => g.ready t)

/-- `TaskGraph.is_complete` from `planning_engine.py`. -/
def TaskGraph.is_complete (g : TaskGraph) : Bool :=
  g.tasks.all (fun t =>
    t.status == TaskStatus.COMPLETED || t.status == TaskStatus.FAILED ||
      t.status == TaskStatus.SKIPPED)

/-- The `PORTFOLIO_SECTIONS` table: section id ↦ (name, description, files). -/
def PORTFOLIO_SECTIONS : List (String × String × String × List String) :=
  [("hero", "Hero Section", "Main header with name, title, and intro",
      ["/components/Hero.tsx", "/styles/hero.css"]),
   ("about", "About Section", "Personal introduction and summary",
      ["/components/About.tsx", "/styles/about.css"]),
   ("skills", "Skills Section", "Technical skills and expertise",
      ["/components/Skills.tsx", "/styles/skills.css"]),
   ("experience", "Experience Section", "Work history and achievements",
      ["/components/Experience.tsx", "/styles/experience.css"]),
   ("projects", "Projects Section", "Portfolio of work and projects",
      ["/components/Projects.tsx", "/styles/projects.css"]),
   ("education", "Education Section", "Academic background",
      ["/components/Education.tsx", "/styles/education.css"]),
   ("contact", "Contact Section", "Contact information and form",
      ["/components/Contact.tsx", "/styles/contact.css"])]

/-- Lookup in `PORTFOLIO_SECTIONS` (Python `s in PORTFOLIO_SECTIONS` /
`PORTFOLIO_SECTIONS[s]`). -/
def sectionInfo? (sid : String) : Option (String × String × String × List String) :=
  PORTFOLIO_SECTIONS.find? (fun e => e.1 == sid)

namespace PlanningEngine

/-- `PlanningEngine._infer_sections`: choose sections from data presence.
Python truthiness `if resume_data:` is modelled by the `Option` match
(absent keys being identified with empty defaults, a present-but-empty
dict coincides with the default structure). -/
def infer_sections (resume_data : Option ResumeData) (_user_prompt : Option String) :
    List String :=
  let sections :=
    match resume_data with
    | some rd =>
        let s := ["hero", "about"]
        let s := if rd.skills ≠ [] then s ++ ["skills"] else s
        let s := if rd.work_experience ≠ [] then s ++ ["experience"] else s
        let s := if rd.projects ≠ [] then s ++ ["projects"] else s
        let s := if rd.education ≠ [] then s ++ ["education"] else s
        s
    | none => ["hero", "about", "skills", "experience", "projects"]
  sections ++ ["contact"]

/-- The setup task emitted first by `create_plan`. -/
def initTask (style : String) : BuildTask :=
  { id := "init", type := TaskType.SETUP, name := "Initialize Project",
    description := "Create base files and structure", depends_on := [],
    context := { style := some style },
    output_files := ["/index.html", "/styles/globals.css", "/scripts/main.js"] }

/-- The styling task emitted second by `create_plan`. -/
def styleTask (style : String) : BuildTask :=
  { id := "style", type := TaskType.STYLE, name := "Generate Styles",
    description := "Create theme and design tokens", depends_on := ["init"],
    context := { style := some style },
    output_files := ["/styles/theme.css", "/styles/variables.css"] }

/-- One content-section task as emitted in `create_plan`'s loop. -/
def mkSectionTask (sid prev : String) (resume_data : Option ResumeData)
    (style : String) : BuildTask :=
  let info := (sectionInfo? sid).getD (sid, "", "", [])
  { id := sid, type := TaskType.SECTION, name := info.2.1,
    description := info.2.2.1, depends_on := [prev],
    context := { section_id := some sid, resume_data := some resume_data,
                 style := some style },
    output_files := info.2.2.2 }

/-- The section-task loop of `create_plan`: each task depends on the
previous task id, starting from `prev`. -/
def sectionTasks (resume_data : Option ResumeData) (style : String) :
    String → List String → List BuildTask
  | _, [] => []
  | prev, s :: rest =>
      mkSectionTask s prev resume_data style :: sectionTasks resume_data style s rest

/-- The value of `prev_task_id` after `create_plan`'s loop. -/
def lastPrev : String → List String → String
  | prev, [] => prev
  | _, s :: rest => lastPrev s rest

/-- The finalize task emitted last by `create_plan`. -/
def finalizeTask (prev : String) : BuildTask :=
  { id := "finalize", type := TaskType.FINALIZE, name := "Finalize Portfolio",
    description := "Assemble all sections and create final output",
    depends_on := [prev], output_files := ["/index.html"] }

/-- The section-selection step of `create_plan`: an explicit non-empty
list is filtered to known section ids; Python `if sections:` is false
for `None` and for an empty list, in which case sections are inferred. -/
def selected_sections (resume_data : Option ResumeData)
    (user_prompt : Option String) (sections : Option (List String)) :
    List String :=
  match sections with
  | some l =>
      if l ≠ [] then l.filter (fun s => (sectionInfo? s).isSome)
      else infer_sections resume_data user_prompt
  | none => infer_sections resume_data user_prompt

/-- `PlanningEngine.create_plan`. -/
def create_plan (build_id : String) (resume_data : Option ResumeData)
    (user_prompt : Option String) (style : String)
    (sections : Option (List String)) : TaskGraph :=
  let sel := selected_sections resume_data user_prompt sections
  { build_id := build_id,
    tasks := initTask style :: styleTask style ::
      (sectionTasks resume_data style "style" sel ++
        [finalizeTask (lastPrev "style" sel)]) }

/-- `PlanningEngine.get_section_context`: the slice of resume data
relevant to one section, as the code extracts it.  The result is a
context dict with section-specific keys; we reuse `ResumeData` as the
carrier of that restricted dict (unset keys keep their empty default). -/
def get_section_context (section_id : String) (resume_data : Option ResumeData) :
    ResumeData :=
  match resume_data with
  | none => {}
  | some rd =>
      if section_id == "hero" then
        { name := rd.name, headline := rd.headline, summary := rd.summary }
      else if section_id == "about" then
        { summary := rd.summary, highlights := rd.highlights }
      else if section_id == "skills" then
        { skills := rd.skills }
      else if section_id == "experience" then
        { work_experience := rd.work_experience }
      else if section_id == "projects" then
        { projects := rd.projects }
      else if section_id == "education" then
        { education := rd.education }
      else if section_id == "contact" then
        { email := rd.email, phone := rd.phone, linkedin := rd.linkedin,
          github := rd.github, website := rd.website }
      else {}

end PlanningEngine

/-! ## Virtual filesystem (`virtual_filesystem.py`) -/

/-- `VFSFile` dataclass (timestamps omitted). -/
structure VFSFile where
  path : String
  content : String
  version : Nat := 1
deriving DecidableEq, Repr

/-- `VirtualFilesystem._normalize_path`: ensure a leading slash, strip
trailing slashes unless the path is exactly "/", convert backslashes to
forward slashes.  The Python `str` primitives (`startswith`, `rstrip`,
single-character `replace`) are implemented over the character list so
that the function reduces inside the kernel. -/
def normalize_path (path : String) : String :=
  let cs := path.data
  let cs := if cs.head? = some '/' then cs else '/' :: cs
  let cs := if cs = ['/'] then cs else (cs.reverse.dropWhile (· = '/')).reverse
  ⟨cs.map (fun c => if c = '\\' then '/' else c)⟩

/-- `VirtualFilesystem` state: the `_files` dict as a map from
normalized paths to files, and the `_snapshots` list, each snapshot a
path→content map.  (The `RLock` and `build_id` fields carry no verified
behaviour and are omitted.) -/
structure VirtualFilesystem where
  files : String → Option VFSFile
  snapshots : List (String → Option String)

/-- The empty filesystem created by `VirtualFilesystem.__init__`. -/
def VirtualFilesystem.empty : VirtualFilesystem :=
  { files := fun _ => none, snapshots := [] }

/-- `VirtualFilesystem.write`: create, or overwrite in place with a
version bump.  Returns the new state and the created/updated file. -/
def VirtualFilesystem.write (fs : VirtualFilesystem) (path content : String) :
    VirtualFilesystem × VFSFile :=
  let p := normalize_path path
  match fs.files p with
  | some existing =>
      let f := { existing with content := content, version := existing.version + 1 }
      ({ fs with files := fun q => if q = p then some f else fs.files q }, f)
  | none =>
      let f : VFSFile := { path := p, content := content }
      ({ fs with files := fun q => if q = p then some f else fs.files q }, f)

/-- `VirtualFilesystem.read`: content at the normalized path, if present. -/
def VirtualFilesystem.read (fs : VirtualFilesystem) (path : String) : Option String :=
  (fs.files (normalize_path path)).map (fun f => f.content)

/-- `VirtualFilesystem.delete`: remove the file if present; the `Bool`
reports whether anything was deleted. -/
def VirtualFilesystem.delete (fs : VirtualFilesystem) (path : String) :
    VirtualFilesystem × Bool :=
  let p := normalize_path path
  match fs.files p with
  | some _ =>
      ({ fs with files := fun q => if q = p then none else fs.files q }, true)
  | none => (fs, false)

/-- `VirtualFilesystem.exists`: presence test at the normalized path. -/
def VirtualFilesystem.exists (fs : VirtualFilesystem) (path : String) : Bool :=
  (fs.files (normalize_path path)).isSome

/-- `VirtualFilesystem.get_all_files`: the path→content map. -/
def VirtualFilesystem.get_all_files (fs : VirtualFilesystem) :
    String → Option String :=
  fun p => (fs.files p).map (fun f => f.content)

/-- `VirtualFilesystem.create_snapshot`: append the current path→content
map to the snapshot list and return its index (the old length). -/
def VirtualFilesystem.create_snapshot (fs : VirtualFilesystem) :
    VirtualFilesystem × Nat :=
  ({ fs with snapshots := fs.snapshots ++ [fs.get_all_files] },
   fs.snapshots.length)

/-- `VirtualFilesystem.rollback`: for an in-range index, replace the file
map with fresh version-1 files holding the snapshot's contents; an
out-of-range (negative or too large) index returns `false` and leaves
the state untouched.  The index is an `Int`, as any Python int may be
passed. -/
def VirtualFilesystem.rollback (fs : VirtualFilesystem) (snapshot_index : Int) :
    VirtualFilesystem × Bool :=
  if snapshot_index < 0 ∨ (fs.snapshots.length : Int) ≤ snapshot_index then
    (fs, false)
  else
    match fs.snapshots[snapshot_index.toNat]? with
    | some snap =>
        ({ fs with files := fun p =>
            (snap p).map (fun c => { path := p, content := c }) }, true)
    | none => (fs, false)

/-! ## Build orchestrator (`build_orchestrator.py`) -/

/-- `BuildStatus` enum from `build_orchestrator.py`. -/
inductive BuildStatus where
  | PENDING
  | PLANNING
  | BUILDING
  | COMPLETED
  | FAILED
  | CANCELLED
deriving DecidableEq, Repr

/-- `CodeOutput` dataclass from `code_worker.py`. -/
structure CodeOutput where
  file_path : String
  content : String
  language : String := "html"
deriving DecidableEq, Repr

/-- `WorkerResult` dataclass from `code_worker.py`. -/
structure WorkerResult where
  task_id : String
  success : Bool
  outputs : List CodeOutput
  error : Option String := none
deriving DecidableEq, Repr

/-- The generation-worker contract (`CodeWorker.execute`): one call maps
the task and the current file map to a result.  The worker's internals
are external to the core, so it is a parameter of the orchestrator
operations. -/
def Worker : Type := BuildTask → (String → Option String) → WorkerResult

/-- `Build` dataclass from `build_orchestrator.py` (timestamps omitted;
`vfs` is always allocated by `start_build` before any modelled operation
touches the build, so it is a plain field). -/
structure Build where
  id : String
  user_id : String
  portfolio_id : Option String := none
  status : BuildStatus := BuildStatus.PENDING
  task_graph : Option TaskGraph := none
  vfs : VirtualFilesystem
  resume_data : Option ResumeData := none
  user_prompt : Option String := none
  style : String := "modern"
  error : Option String := none

/-- Replace the first element satisfying `p` (the object Python's
`get_task` returns and mutates in place). -/
def updateFirst (p : α → Bool) (f : α → α) : List α → List α
  | [] => []
  | x :: xs => if p x then f x :: xs else x :: updateFirst p f xs

/-- In-place mutation of the task `get_task task_id` returns: the first
task with that id is replaced by `f` of it. -/
def TaskGraph.update_task (g : TaskGraph) (task_id : String)
    (f : BuildTask → BuildTask) : TaskGraph :=
  { g with tasks := updateFirst (fun t => t.id == task_id) f g.tasks }

/-- The `BuildOrchestrator._builds` registry (event listeners are not
part of any verified property and are omitted). -/
structure BuildOrchestrator where
  builds : String → Option Build

/-- `self._builds[build_id] = build`. -/
def BuildOrchestrator.update (st : BuildOrchestrator) (build_id : String)
    (b : Build) : BuildOrchestrator :=
  { builds := fun k => if k = build_id then some b else st.builds k }

/-- `BuildOrchestrator._execute_task`: mark the task running, call the
worker on it with the current file map, then on success write every
output to the file store and mark the task completed with its output
paths; on failure mark it failed with the error.  (Thrown exceptions in
the Python worker call are subsumed by the failure branch; events and
timestamps are omitted.) -/
def execute_task (worker : Worker) (b : Build) (task_id : String) : Build :=
  match b.task_graph with
  | none => b
  | some g =>
      match g.get_task task_id with
      | none => b
      | some task =>
          let running := { task with status := TaskStatus.RUNNING }
          let result := worker running b.vfs.get_all_files
          if result.success then
            let vfs := result.outputs.foldl
              (fun v o => (v.write o.file_path o.content).1) b.vfs
            let done := { running with
              status := TaskStatus.COMPLETED,
              output_files := result.outputs.map (fun o => o.file_path) }
            { b with vfs := vfs,
                     task_graph := some (g.update_task task_id (fun _ => done)) }
          else
            let failed := { running with
              status := TaskStatus.FAILED,
              error := result.error }
            { b with task_graph := some (g.update_task task_id (fun _ => failed)) }

/-- `BuildOrchestrator.retry_task`: no-op returning `false` unless the
build exists, has a graph, the task exists and its status is failed;
otherwise reset the task to pending, re-execute it, flip a failed build
back to building, and return `true`.  (The `asyncio.create_task`
resumption of the background loop is concurrent follow-on work outside
the modelled call.) -/
def retry_task (worker : Worker) (st : BuildOrchestrator)
    (build_id task_id : String) : BuildOrchestrator × Bool :=
  match st.builds build_id with
  | none => (st, false)
  | some b =>
      match b.task_graph with
      | none => (st, false)
      | some g =>
          match g.get_task task_id with
          | none => (st, false)
          | some task =>
              if task.status ≠ TaskStatus.FAILED then (st, false)
              else
                let g1 := g.update_task task_id
                  (fun t => { t with status := TaskStatus.PENDING, error := none })
                let b1 := execute_task worker { b with task_graph := some g1 } task_id
                let b2 := if b1.status = BuildStatus.FAILED then
                            { b1 with status := BuildStatus.BUILDING }
                          else b1
                (st.update build_id b2, true)

/-- The task mutations `regenerate_section` performs before
re-execution: merge a non-empty new prompt into the context
(`if new_prompt:` is false for `None` and for the empty string), then
reset status, error and recorded outputs. -/
def regen_reset (task : BuildTask) (new_prompt : Option String) : BuildTask :=
  let task1 :=
    match new_prompt with
    | some np =>
        if np ≠ "" then
          { task with context := { task.context with user_instruction := some np } }
        else task
    | none => task
  { task1 with
    status := TaskStatus.PENDING,
    error := none,
    output_files := [] }

/-- `BuildOrchestrator.regenerate_section`: `false` unless the build
exists, has a graph, and the task exists; otherwise merge a non-empty
new prompt into the context, delete the task's recorded output files
from the file store, reset the task, re-execute it and return `true`. -/
def regenerate_section (worker : Worker) (st : BuildOrchestrator)
    (build_id section_id : String) (new_prompt : Option String) :
    BuildOrchestrator × Bool :=
  match st.builds build_id with
  | none => (st, false)
  | some b =>
      match b.task_graph with
      | none => (st, false)
      | some g =>
          match g.get_task section_id with
          | none => (st, false)
          | some task =>
              let vfs1 := task.output_files.foldl
                (fun v p => (v.delete p).1) b.vfs
              let g1 := g.update_task section_id
                (fun _ => regen_reset task new_prompt)
              let b1 := execute_task worker
                { b with vfs := vfs1, task_graph := some g1 } section_id
              (st.update build_id b1, true)

/-! ## Well-formedness predicates on task graphs -/

/-- Every dependency id of each task appears as the id of a strictly
earlier task; `seen` carries the ids of tasks already passed. -/
def earlierOK : List String → List BuildTask → Prop
  | _, [] => True
  | seen, t :: rest =>
      (∀ d ∈ t.depends_on, d ∈ seen) ∧ earlierOK (seen ++ [t.id]) rest

/-- The resolved dependency relation on positions of `g.tasks`:
`depEdge g i j` holds when some dependency id `d` of the task at
position `i` resolves — by `get_task`'s first-match rule — to the task
at position `j` (`j` bears id `d` and no position bearing id `d` is
smaller).  A cycle in the graph is a `Relation.TransGen depEdge` loop. -/
def depEdge (g : TaskGraph) (i j : Nat) : Prop :=
  ∃ hi : i < g.tasks.length, ∃ hj : j < g.tasks.length,
    ∃ d ∈ (g.tasks.get ⟨i, hi⟩).depends_on,
      (g.tasks.get ⟨j, hj⟩).id = d ∧
        ∀ k, ∀ hk : k < g.tasks.length, (g.tasks.get ⟨k, hk⟩).id = d → j ≤ k

/-! ## Concrete fixtures used by witnesses and counterexamples -/

/-- A resume whose dict holds (non-empty) skills and work-experience
data only. -/
def rdC1 : ResumeData := { skills := ["Python"], work_experience := ["Acme Corp"] }

/-- A worker that fails every task (`success = False`). -/
def failWorker : Worker :=
  fun t _ => { task_id := t.id, success := false, outputs := [], error := some "generation failed" }

/-- A completed section task (fixture for the retry no-op claim). -/
def taskC8 : BuildTask :=
  { id := "skills", type := TaskType.SECTION, status := TaskStatus.COMPLETED }

/-- One-task graph holding `taskC8`. -/
def graphC8 : TaskGraph := { build_id := "b8", tasks := [taskC8] }

/-- A build holding `graphC8`. -/
def buildC8 : Build :=
  { id := "b8", user_id := "u", vfs := VirtualFilesystem.empty,
    task_graph := some graphC8 }

/-- Registry holding `buildC8` under id "b8". -/
def stC8 : BuildOrchestrator :=
  { builds := fun k => if k = "b8" then some buildC8 else none }

/-- A completed section task with two recorded output files (fixture
for the regenerate claim). -/
def taskC9 : BuildTask :=
  { id := "skills", type := TaskType.SECTION, status := TaskStatus.COMPLETED,
    output_files := ["/components/Skills.tsx", "/styles/skills.css"] }

/-- One-task graph holding `taskC9`. -/
def graphC9 : TaskGraph := { build_id := "b9", tasks := [taskC9] }

/-- A build holding `graphC9`, its store holding the two output files. -/
def buildC9 : Build :=
  { id := "b9", user_id := "u",
    vfs := ((VirtualFilesystem.empty.write "/components/Skills.tsx" "tsx").1.write
      "/styles/skills.css" "css").1,
    task_graph := some graphC9 }

/-- Registry holding `buildC9` under id "b9". -/
def stC9 : BuildOrchestrator :=
  { builds := fun k => if k = "b9" then some buildC9 else none }

/-! ## File-store lemmas -/

/-- `write` updates the file map exactly at the normalized path. -/
theorem write_files (fs : VirtualFilesystem) (p c : String) :
    ((fs.write p c).1).files =
      fun q => if q = normalize_path p then some ((fs.write p c).2)
               else fs.files q := by
  unfold VirtualFilesystem.write
  cases h : fs.files (normalize_path p) <;> simp [h]

/-- The file `write` returns carries the written content. -/
theorem write_content (fs : VirtualFilesystem) (p c : String) :
    ((fs.write p c).2).content = c := by
  unfold VirtualFilesystem.write
  cases h : fs.files (normalize_path p) <;> simp [h]

/-- When the path already holds a file, `write` bumps its version. -/
theorem write_version_of_some (fs : VirtualFilesystem) (p c : String)
    (f : VFSFile) (h : fs.files (normalize_path p) = some f) :
    ((fs.write p c).2).version = f.version + 1 := by
  simp [VirtualFilesystem.write, h]

/-- `write` leaves the snapshot list unchanged. -/
theorem write_snapshots (fs : VirtualFilesystem) (p c : String) :
    ((fs.write p c).1).snapshots = fs.snapshots := by
  unfold VirtualFilesystem.write
  cases h : fs.files (normalize_path p) <;> simp [h]

/-- `delete` leaves absent paths absent. -/
theorem delete_preserves_none (fs : VirtualFilesystem) (r q : String)
    (h : fs.files q = none) : (((fs.delete r).1).files q = none) := by
  unfold VirtualFilesystem.delete
  cases hr : fs.files (normalize_path r) <;> simp [hr, h]

/-- After `delete p`, the normalized path holds nothing. -/
theorem delete_self (fs : VirtualFilesystem) (p : String) :
    (((fs.delete p).1).files (normalize_path p) = none) := by
  unfold VirtualFilesystem.delete
  cases hr : fs.files (normalize_path p) <;> simp [hr]

/-- Folding `delete` over a list keeps absent paths absent. -/
theorem foldl_delete_preserves_none (l : List String) :
    ∀ fs : VirtualFilesystem, ∀ q : String, fs.files q = none →
      ((l.foldl (fun v r => (v.delete r).1) fs).files q = none) := by
  induction l with
  | nil => intro fs q h; exact h
  | cons r rest ih =>
      intro fs q h
      exact ih ((fs.delete r).1) q (delete_preserves_none fs r q h)

/-- Folding `delete` over a list removes every listed path. -/
theorem foldl_delete_removes (l : List String) :
    ∀ fs : VirtualFilesystem, ∀ p ∈ l,
      ((l.foldl (fun v r => (v.delete r).1) fs).files (normalize_path p) = none) := by
  induction l with
  | nil => intro fs p hp; cases hp
  | cons r rest ih =>
      intro fs p hp
      rcases List.mem_cons.mp hp with h | h
      · subst h
        exact foldl_delete_preserves_none rest ((fs.delete p).1)
          (normalize_path p) (delete_self fs p)
      · exact ih ((fs.delete r).1) p h

/-! ## Claim theorems: file store -/

/-- C6: writing `c` at `p` makes `Read p` return `c`; a second write of
`c2` at `p` bumps the stored version by one and touches no other entry
of the file map (no second entry for `p` is created), after which
`Read p` returns `c2`; deleting `p` then makes `Read p` absent. -/
theorem c6_file_store_roundtrip (fs : VirtualFilesystem) (p c c2 : String) :
    (fs.write p c).1.read p = some c ∧
    (∃ v, (((fs.write p c).1).files (normalize_path p)).map VFSFile.version = some v ∧
      ((((fs.write p c).1.write p c2).1).files (normalize_path p)).map VFSFile.version
        = some (v + 1)) ∧
    (∀ q, q ≠ normalize_path p →
      (((fs.write p c).1.write p c2).1).files q = ((fs.write p c).1).files q) ∧
    ((fs.write p c).1.write p c2).1.read p = some c2 ∧
    ((((fs.write p c).1.write p c2).1.delete p).1).read p = none := by
  refine ⟨?_, ⟨((fs.write p c).2).version, ?_, ?_⟩, ?_, ?_, ?_⟩
  · simp [VirtualFilesystem.read, write_files, write_content]
  · simp [write_files]
  · have h1 : ((fs.write p c).1).files (normalize_path p) = some ((fs.write p c).2) := by
      rw [write_files]
      simp
    have h2 : (((fs.write p c).1.write p c2).1).files (normalize_path p)
        = some (((fs.write p c).1.write p c2).2) := by
      rw [write_files]
      simp
    simp [h2, write_version_of_some ((fs.write p c).1) p c2 ((fs.write p c).2) h1]
  · intro q hq
    rw [write_files ((fs.write p c).1) p c2]
    simp [hq]
  · simp [VirtualFilesystem.read, write_files, write_content]
  · simp [VirtualFilesystem.read, delete_self]

/-- C10: `Rollback` with a negative index, or one not less than the
number of snapshots, returns `false` and leaves the store (its file
map included) completely unchanged. -/
theorem c10_rollback_out_of_range (fs : VirtualFilesystem) (i : Int)
    (h : i < 0 ∨ (fs.snapshots.length : Int) ≤ i) :
    fs.rollback i = (fs, false) := by
  unfold VirtualFilesystem.rollback
  rw [if_pos h]

/-- C10 witness: rollback at index `-1` on the empty store. -/
theorem c10_witness :
    VirtualFilesystem.empty.rollback (-1) = (VirtualFilesystem.empty, false) :=
  c10_rollback_out_of_range VirtualFilesystem.empty (-1) (Or.inl (by decide))

/-- C7 counterexample: the claim quantifies over every starting store,
but when the store already holds `b` before the sequence, the snapshot
captures it and rollback restores it, so `Read b` is not absent. -/
theorem c7_counterexample :
    normalize_path "/a" ≠ normalize_path "/b" ∧
    ((let fs0 := (VirtualFilesystem.empty.write "/b" "0").1
      let fs1 := (fs0.write "/a" "1").1
      let s := fs1.create_snapshot
      let fs3 := (s.1.write "/a" "2").1
      let fs4 := (fs3.write "/b" "3").1
      ((fs4.rollback (s.2 : Int)).1.read "/b")) = some "0") := by
  constructor
  · decide
  · decide

/-- C7 (amended): starting from any store in which `b` is absent, the
sequence `Write(a,"1"); idx := Snapshot(); Write(a,"2"); Write(b,"3");
Rollback(idx)` returns `true`, restores `Read a = "1"`, leaves `Read b`
absent, and restores exactly the snapshot's path-to-content map. -/
theorem c7_snapshot_rollback (fs : VirtualFilesystem) (a b : String)
    (hab : normalize_path a ≠ normalize_path b) (hb : fs.read b = none) :
    (let fs1 := (fs.write a "1").1
     let s := fs1.create_snapshot
     let fs3 := (s.1.write a "2").1
     let fs4 := (fs3.write b "3").1
     let r := fs4.rollback (s.2 : Int)
     r.2 = true ∧ r.1.read a = some "1" ∧ r.1.read b = none ∧
       ∀ q, (r.1.files q).map VFSFile.content = fs1.get_all_files q) := by
  have hbf : fs.files (normalize_path b) = none := by
    unfold VirtualFilesystem.read at hb
    exact Option.map_eq_none'.mp hb
  set fs1 := (fs.write a "1").1 with hfs1
  have hsnaps : ((((fs1.create_snapshot).1.write a "2").1.write b "3").1).snapshots
      = fs1.snapshots ++ [fs1.get_all_files] := by
    rw [write_snapshots, write_snapshots]
    rfl
  have hidx : ((fs1.create_snapshot).2 : Int) = (fs1.snapshots.length : Int) := rfl
  have hcond : ¬ ((((fs1.create_snapshot).2 : Nat) : Int) < 0 ∨
      (((((fs1.create_snapshot).1.write a "2").1.write b "3").1).snapshots.length : Int)
        ≤ (((fs1.create_snapshot).2 : Nat) : Int)) := by
    rw [hsnaps]
    push_neg
    constructor
    · exact Int.natCast_nonneg _
    · simp [VirtualFilesystem.create_snapshot]
  have hroll : ((((fs1.create_snapshot).1.write a "2").1.write b "3").1).rollback
      ((fs1.create_snapshot).2 : Int)
      = ({ files := fun p => (fs1.get_all_files p).map
             (fun content => { path := p, content := content }),
           snapshots := fs1.snapshots ++ [fs1.get_all_files] }, true) := by
    unfold VirtualFilesystem.rollback
    rw [if_neg hcond, hsnaps]
    have : ((((fs1.create_snapshot).2 : Nat) : Int)).toNat = fs1.snapshots.length := by
      simp [VirtualFilesystem.create_snapshot]
    rw [this, List.getElem?_concat_length]
  refine ⟨by rw [hroll], ?_, ?_, ?_⟩
  · rw [hroll]
    unfold VirtualFilesystem.read VirtualFilesystem.get_all_files
    simp only [Option.map_map]
    rw [hfs1, write_files fs a "1"]
    simp [write_content fs a "1"]
  · rw [hroll]
    unfold VirtualFilesystem.read VirtualFilesystem.get_all_files
    simp only [Option.map_map]
    have hnb : fs1.files (normalize_path b) = none := by
      rw [hfs1, write_files fs a "1"]
      simp [if_neg (Ne.symm hab), hbf]
    simp [hnb]
  · intro q
    rw [hroll]
    unfold VirtualFilesystem.get_all_files
    simp [Option.map_map]
    rfl

/-- C7 witness: the sequence on the empty store at paths "/a", "/b". -/
theorem c7_witness :
    (let fs1 := (VirtualFilesystem.empty.write "/a" "1").1
     let s := fs1.create_snapshot
     let fs3 := (s.1.write "/a" "2").1
     let fs4 := (fs3.write "/b" "3").1
     let r := fs4.rollback (s.2 : Int)
     r.2 = true ∧ r.1.read "/a" = some "1" ∧ r.1.read "/b" = none ∧
       ∀ q, (r.1.files q).map VFSFile.content = fs1.get_all_files q) :=
  c7_snapshot_rollback VirtualFilesystem.empty "/a" "/b" (by decide) (by decide)

/-! ## Claim theorems: task graph readiness -/

/-- The per-dependency test of `get_ready_tasks`, as a resolution
statement. -/
theorem depOk_iff (g : TaskGraph) (d : String) :
    (match g.get_task d with
     | some dep => dep.status == TaskStatus.COMPLETED
     | none => false) = true ↔
      ∃ u, g.get_task d = some u ∧ u.status = TaskStatus.COMPLETED := by
  cases h : g.get_task d <;> simp [h]

/-- C3: a task is in `get_ready_tasks` iff it is in the graph, pending,
and every dependency id resolves to a task of the graph whose status is
completed; in particular it is never ready while some dependency
resolves to a pending, running or failed task. -/
theorem c3_ready_iff (g : TaskGraph) (t : BuildTask) :
    (t ∈ g.get_ready_tasks ↔
      t ∈ g.tasks ∧ t.status = TaskStatus.PENDING ∧
        ∀ d ∈ t.depends_on, ∃ u, g.get_task d = some u ∧
          u.status = TaskStatus.COMPLETED) ∧
    (∀ d u, d ∈ t.depends_on → g.get_task d = some u →
      (u.status = TaskStatus.PENDING ∨ u.status = TaskStatus.RUNNING ∨
        u.status = TaskStatus.FAILED) → t ∉ g.get_ready_tasks) := by
  have hiff : t ∈ g.get_ready_tasks ↔
      t ∈ g.tasks ∧ t.status = TaskStatus.PENDING ∧
        ∀ d ∈ t.depends_on, ∃ u, g.get_task d = some u ∧
          u.status = TaskStatus.COMPLETED := by
    unfold TaskGraph.get_ready_tasks TaskGraph.ready
    rw [List.mem_filter]
    simp only [Bool.and_eq_true, beq_iff_eq, List.all_eq_true]
    constructor
    · rintro ⟨h1, h2, h3⟩
      exact ⟨h1, h2, fun d hd => (depOk_iff g d).mp (h3 d hd)⟩
    · rintro ⟨h1, h2, h3⟩
      exact ⟨h1, h2, fun d hd => (depOk_iff g d).mpr (h3 d hd)⟩
  refine ⟨hiff, ?_⟩
  intro d u hd hu hbad hmem
  obtain ⟨-, -, hall⟩ := hiff.mp hmem
  obtain ⟨u', hu', hc⟩ := hall d hd
  rw [hu] at hu'
  cases hu'
  rcases hbad with h | h | h <;> rw [hc] at h <;> cases h

/-! ## Claim theorems: retry -/

/-- C8: `retry_task` returns `false` and leaves the whole orchestrator
state (builds, their graphs and file stores) unchanged whenever the
build does not exist, has no graph, the task does not exist, or the
task's status is not failed (in particular when it is completed). -/
theorem c8_retry_noop (worker : Worker) (st : BuildOrchestrator)
    (bid tid : String)
    (h : ∀ b, st.builds bid = some b → ∀ g, b.task_graph = some g →
      ∀ t, g.get_task tid = some t → t.status ≠ TaskStatus.FAILED) :
    retry_task worker st bid tid = (st, false) := by
  unfold retry_task
  split
  · rfl
  next b hb =>
    split
    · rfl
    next g hg =>
      split
      · rfl
      next t ht =>
        rw [if_pos (h b hb g hg t ht)]

/-- C8 witness: retrying the completed task of `stC8` is a no-op. -/
theorem c8_witness : retry_task failWorker stC8 "b8" "skills" = (stC8, false) :=
  c8_retry_noop failWorker stC8 "b8" "skills" (by
    intro b hb g hg t ht
    rw [show stC8.builds "b8" = some buildC8 from rfl] at hb
    injection hb with hb
    subst hb
    rw [show buildC8.task_graph = some graphC8 from rfl] at hg
    injection hg with hg
    subst hg
    rw [show graphC8.get_task "skills" = some taskC8 from rfl] at ht
    injection ht with ht
    subst ht
    decide)

/-! ## Claim theorems: regenerate -/

/-- When the worker refuses every task, `execute_task` writes nothing:
the build's file store is unchanged. -/
theorem execute_task_vfs_of_fail (worker : Worker) (b : Build) (tid : String)
    (hfail : ∀ u files, (worker u files).success = false) :
    (execute_task worker b tid).vfs = b.vfs := by
  unfold execute_task
  split
  · rfl
  next g hg =>
    split
    · rfl
    next t ht => simp [hfail]

/-- C9: on an existing build and task, `regenerate_section` returns
`true` (so `false` is only returned when the build or task is unknown),
and — the re-execution failing — every one of the task's previously
recorded output files has been deleted from the file store. -/
theorem c9_regenerate_deletes_outputs (worker : Worker) (st : BuildOrchestrator)
    (bid sid : String) (np : Option String) (b : Build) (g : TaskGraph)
    (task : BuildTask) (hb : st.builds bid = some b) (hg : b.task_graph = some g)
    (ht : g.get_task sid = some task) :
    (regenerate_section worker st bid sid np).2 = true ∧
    ((∀ u files, (worker u files).success = false) →
      ∃ b2, ((regenerate_section worker st bid sid np).1).builds bid = some b2 ∧
        ∀ p ∈ task.output_files, b2.vfs.read p = none) := by
  simp only [regenerate_section, hb, hg, ht]
  constructor
  · trivial
  · intro hfail
    refine ⟨execute_task worker
      { b with
        vfs := task.output_files.foldl (fun v p => (v.delete p).1) b.vfs,
        task_graph := some (g.update_task sid (fun _ => regen_reset task np)) }
      sid, ?_, ?_⟩
    · simp [BuildOrchestrator.update]
    · intro p hp
      rw [VirtualFilesystem.read, execute_task_vfs_of_fail worker _ sid hfail]
      rw [foldl_delete_removes task.output_files b.vfs p hp]
      rfl

/-- C9 witness: regenerating the completed two-output task of `stC9`
under the always-failing worker. -/
theorem c9_witness :
    (regenerate_section failWorker stC9 "b9" "skills" none).2 = true ∧
    ((∀ u files, (failWorker u files).success = false) →
      ∃ b2, ((regenerate_section failWorker stC9 "b9" "skills" none).1).builds "b9"
          = some b2 ∧
        ∀ p ∈ taskC9.output_files, b2.vfs.read p = none) :=
  c9_regenerate_deletes_outputs failWorker stC9 "b9" "skills" none buildC9 graphC9
    taskC9 rfl rfl rfl

/-! ## Claim theorems: plan structure -/

open PlanningEngine

/-- From `earlierOK`: every dependency of the task at position `i`
either lies in `seen` or is the id of a strictly earlier task. -/
theorem earlierOK_resolves (ts : List BuildTask) :
    ∀ seen : List String, earlierOK seen ts →
      ∀ i, ∀ hi : i < ts.length, ∀ d ∈ (ts.get ⟨i, hi⟩).depends_on,
        d ∈ seen ∨ ∃ j, ∃ hj : j < ts.length, j < i ∧ (ts.get ⟨j, hj⟩).id = d := by
  induction ts with
  | nil =>
      intro seen _ i hi
      exact absurd hi (by simp)
  | cons t rest ih =>
      intro seen h i hi d hd
      obtain ⟨h1, h2⟩ := h
      cases i with
      | zero => exact Or.inl (h1 d hd)
      | succ i =>
          have hi' : i < rest.length := by simpa using hi
          have hd' : d ∈ (rest.get ⟨i, hi'⟩).depends_on := by simpa using hd
          rcases ih (seen ++ [t.id]) h2 i hi' d hd' with hmem | ⟨j, hj, hji, hid⟩
          · rcases List.mem_append.mp hmem with hs | hs
            · exact Or.inl hs
            · refine Or.inr ⟨0, by simp, Nat.succ_pos i, ?_⟩
              simpa using (List.mem_singleton.mp hs).symm
          · exact Or.inr ⟨j + 1, by simpa using hj, Nat.succ_lt_succ hji,
              by simpa using hid⟩

/-- The section chain followed by the finalize task satisfies
`earlierOK` whenever the incoming `prev` id was already seen. -/
theorem earlierOK_sectionChain (rd : Option ResumeData) (style : String) :
    ∀ (l : List String) (prev : String) (seen : List String), prev ∈ seen →
      earlierOK seen
        (sectionTasks rd style prev l ++ [finalizeTask (lastPrev prev l)]) := by
  intro l
  induction l with
  | nil =>
      intro prev seen hp
      refine ⟨?_, trivial⟩
      intro d hd
      have : d = prev := by simpa [finalizeTask] using hd
      exact this ▸ hp
  | cons s rest ih =>
      intro prev seen hp
      refine ⟨?_, ?_⟩
      · intro d hd
        have : d = prev := by simpa [mkSectionTask] using hd
        exact this ▸ hp
      · exact ih s (seen ++ [s]) (by simp)

/-- Every plan `create_plan` builds satisfies `earlierOK`. -/
theorem earlierOK_create_plan (bid : String) (rd : Option ResumeData)
    (up : Option String) (style : String) (secs : Option (List String)) :
    earlierOK [] (create_plan bid rd up style secs).tasks := by
  refine ⟨?_, ?_, ?_⟩
  · intro d hd
    simp [initTask] at hd
  · intro d hd
    simpa [styleTask] using hd
  · exact earlierOK_sectionChain rd style _ "style" _ (by simp [initTask, styleTask])

/-- In every generated plan, each dependency of the task at position
`i` is the id of a task at a strictly smaller position. -/
theorem create_plan_resolves_earlier (bid : String) (rd : Option ResumeData)
    (up : Option String) (style : String) (secs : Option (List String)) :
    ∀ i, ∀ hi : i < (create_plan bid rd up style secs).tasks.length,
      ∀ d ∈ ((create_plan bid rd up style secs).tasks.get ⟨i, hi⟩).depends_on,
        ∃ j, ∃ hj : j < (create_plan bid rd up style secs).tasks.length,
          j < i ∧ ((create_plan bid rd up style secs).tasks.get ⟨j, hj⟩).id = d := by
  intro i hi d hd
  rcases earlierOK_resolves _ [] (earlierOK_create_plan bid rd up style secs)
      i hi d hd with hmem | h
  · simp at hmem
  · exact h

/-- C4: in every graph `create_plan` returns, every dependency id
resolves via `get_task` to a task of the same graph, and the resolved
dependency relation `depEdge` admits no cycle. -/
theorem c4_plan_graphs_wellformed (bid : String) (rd : Option ResumeData)
    (up : Option String) (style : String) (secs : Option (List String)) :
    (∀ t ∈ (create_plan bid rd up style secs).tasks, ∀ d ∈ t.depends_on,
      ((create_plan bid rd up style secs).get_task d).isSome = true) ∧
    ∀ i, ¬ Relation.TransGen (depEdge (create_plan bid rd up style secs)) i i := by
  constructor
  · intro t ht d hd
    obtain ⟨⟨i, hi⟩, rfl⟩ := List.mem_iff_get.mp ht
    obtain ⟨j, hj, hji, hid⟩ :=
      create_plan_resolves_earlier bid rd up style secs i hi d hd
    unfold TaskGraph.get_task
    rw [List.find?_isSome]
    exact ⟨(create_plan bid rd up style secs).tasks.get ⟨j, hj⟩,
      List.get_mem _ _ _, by simpa using hid⟩
  · have hlt : ∀ i j, depEdge (create_plan bid rd up style secs) i j → j < i := by
      rintro i j ⟨hi, hj, d, hd, hid, hmin⟩
      obtain ⟨j', hj', hji', hid'⟩ :=
        create_plan_resolves_earlier bid rd up style secs i hi d hd
      exact lt_of_le_of_lt (hmin j' hj' hid') hji'
    intro i hcyc
    have hdesc : ∀ a b, Relation.TransGen
        (depEdge (create_plan bid rd up style secs)) a b → b < a := by
      intro a b h
      induction h with
      | single h => exact hlt _ _ h
      | tail _ hbc ih => exact lt_trans (hlt _ _ hbc) ih
    exact absurd (hdesc i i hcyc) (lt_irrefl i)

/-- C1 counterexample: for a content source with skills and experience
data only, the generated content-section tasks are hero, about, skills,
experience, contact — not exactly {skills, experience, contact}. -/
theorem c1_counterexample :
    ((create_plan "b1" (some rdC1) none "modern" none).tasks.filter
        (fun t => t.type == TaskType.SECTION)).map (fun t => t.id) ≠
      ["skills", "experience", "contact"] := by
  decide

/-- C1 (amended): for a content source with non-empty skills and
work-experience data and nothing else, and no explicit section list,
the plan is exactly init, style, then the content sections hero, about,
skills, experience, contact — each depending on its immediate
predecessor — and finalize last. -/
theorem c1_skills_experience_plan (bid : String) (rd : ResumeData)
    (up : Option String) (style : String)
    (h1 : rd.skills ≠ []) (h2 : rd.work_experience ≠ [])
    (h3 : rd.projects = []) (h4 : rd.education = []) :
    ((create_plan bid (some rd) up style none).tasks.map
        (fun t => (t.id, t.type, t.depends_on))) =
      [("init", TaskType.SETUP, []),
       ("style", TaskType.STYLE, ["init"]),
       ("hero", TaskType.SECTION, ["style"]),
       ("about", TaskType.SECTION, ["hero"]),
       ("skills", TaskType.SECTION, ["about"]),
       ("experience", TaskType.SECTION, ["skills"]),
       ("contact", TaskType.SECTION, ["experience"]),
       ("finalize", TaskType.FINALIZE, ["contact"])] := by
  have hsel : selected_sections (some rd) up none =
      ["hero", "about", "skills", "experience", "contact"] := by
    simp [selected_sections, infer_sections, h1, h2, h3, h4]
  simp [create_plan, hsel, sectionTasks, mkSectionTask, lastPrev,
    initTask, styleTask, finalizeTask]

/-- C1 witness: the concrete skills-and-experience resume. -/
theorem c1_witness :
    ((create_plan "b1" (some rdC1) none "modern" none).tasks.map
        (fun t => (t.id, t.type, t.depends_on))) =
      [("init", TaskType.SETUP, []),
       ("style", TaskType.STYLE, ["init"]),
       ("hero", TaskType.SECTION, ["style"]),
       ("about", TaskType.SECTION, ["hero"]),
       ("skills", TaskType.SECTION, ["about"]),
       ("experience", TaskType.SECTION, ["skills"]),
       ("contact", TaskType.SECTION, ["experience"]),
       ("finalize", TaskType.FINALIZE, ["contact"])] :=
  c1_skills_experience_plan "b1" rdC1 none "modern" (by decide) (by decide) rfl rfl

/-- Every task of the section chain is a SECTION task whose context
holds its own section id, the whole resume-data value, and the style. -/
theorem sectionTasks_context (rd : Option ResumeData) (style : String) :
    ∀ (l : List String) (prev : String) (t : BuildTask),
      t ∈ sectionTasks rd style prev l →
        t.type = TaskType.SECTION ∧
        t.context = { section_id := some t.id, resume_data := some rd,
                      style := some style } := by
  intro l
  induction l with
  | nil =>
      intro prev t ht
      cases ht
  | cons s rest ih =>
      intro prev t ht
      rcases List.mem_cons.mp ht with h | h
      · subst h
        exact ⟨rfl, rfl⟩
      · exact ih s t h

/-- C2 counterexample: in the plan for the skills-and-experience
resume, it is not the case that every content-section task's context
consists of just the section id and the slice `get_section_context`
extracts for it — the skills task's context holds the full source (its
work-experience data included) and the style. -/
theorem c2_counterexample :
    ¬ (∀ t ∈ (create_plan "b1" (some rdC1) none "modern" none).tasks,
        t.type = TaskType.SECTION →
          t.context = { section_id := some t.id,
                        resume_data :=
                          some (some (get_section_context t.id (some rdC1))) }) := by
  decide

/-- C2 (amended): every content-section task's context holds its
section id, the entire content source, and the style — not the
section's slice alone. -/
theorem c2_section_context_full_source (bid : String) (rd : Option ResumeData)
    (up : Option String) (style : String) (secs : Option (List String)) :
    ∀ t ∈ (create_plan bid rd up style secs).tasks,
      t.type = TaskType.SECTION →
        t.context = { section_id := some t.id, resume_data := some rd,
                      style := some style } := by
  intro t ht htype
  have hmem : t = initTask style ∨ t = styleTask style ∨
      t ∈ sectionTasks rd style "style" (selected_sections rd up secs) ∨
      t = finalizeTask (lastPrev "style" (selected_sections rd up secs)) := by
    simpa [create_plan, List.mem_append, or_assoc] using ht
  rcases hmem with h | h | h | h
  · rw [h] at htype
    cases htype
  · rw [h] at htype
    cases htype
  · exact (sectionTasks_context rd style _ "style" t h).2
  · rw [h] at htype
    cases htype

/-- C2 witness: the skills task of the concrete plan. -/
theorem c2_witness :
    (mkSectionTask "skills" "about" (some rdC1) "modern").context =
      { section_id := some (mkSectionTask "skills" "about" (some rdC1) "modern").id,
        resume_data := some (some rdC1), style := some "modern" } :=
  c2_section_context_full_source "b1" (some rdC1) none "modern" none
    (mkSectionTask "skills" "about" (some rdC1) "modern") (by decide) rfl

/-- The ids of the section chain are exactly the selected section ids,
in order. -/
theorem sectionTasks_ids (rd : Option ResumeData) (style : String) :
    ∀ (l : List String) (prev : String),
      (sectionTasks rd style prev l).map (fun t => t.id) = l := by
  intro l
  induction l with
  | nil => intro prev; rfl
  | cons s rest ih =>
      intro prev
      simp only [sectionTasks, List.map_cons, ih]
      rfl

/-- The section chain is untouched by the SECTION-type filter. -/
theorem sectionTasks_filter (rd : Option ResumeData) (style : String) :
    ∀ (l : List String) (prev : String),
      (sectionTasks rd style prev l).filter (fun t => t.type == TaskType.SECTION)
        = sectionTasks rd style prev l := by
  intro l
  induction l with
  | nil => intro prev; rfl
  | cons s rest ih =>
      intro prev
      simp only [sectionTasks, List.filter_cons]
      rw [ih]
      rfl

/-- The content-section tasks of a plan are exactly the section chain
over the selected sections. -/
theorem filter_section_of_plan (bid : String) (rd : Option ResumeData)
    (up : Option String) (style : String) (secs : Option (List String)) :
    (create_plan bid rd up style secs).tasks.filter
        (fun t => t.type == TaskType.SECTION)
      = sectionTasks rd style "style" (selected_sections rd up secs) := by
  simp only [create_plan, List.filter_cons, List.filter_append]
  rw [sectionTasks_filter]
  simp [initTask, styleTask, finalizeTask]

/-- C5 counterexample: with the explicit section list
["contact", "skills"], at least one content section is selected and
the last content-section task is "skills", not "contact". -/
theorem c5_counterexample :
    ((create_plan "b5" none none "modern" (some ["contact", "skills"])).tasks.filter
        (fun t => t.type == TaskType.SECTION)) ≠ [] ∧
    (((create_plan "b5" none none "modern" (some ["contact", "skills"])).tasks.filter
        (fun t => t.type == TaskType.SECTION)).map (fun t => t.id)).getLast?
      ≠ some "contact" := by
  decide

/-- C5 (amended): whenever the section list is absent or empty — so the
sections are inferred from the content source — the last content-section
task of the plan is the contact section. -/
theorem c5_inferred_last_contact (bid : String) (rd : Option ResumeData)
    (up : Option String) (style : String) (secs : Option (List String))
    (h : secs = none ∨ secs = some []) :
    (((create_plan bid rd up style secs).tasks.filter
        (fun t => t.type == TaskType.SECTION)).map (fun t => t.id)).getLast?
      = some "contact" := by
  rw [filter_section_of_plan, sectionTasks_ids]
  have hsel : selected_sections rd up secs = infer_sections rd up := by
    rcases h with h | h <;> subst h <;> simp [selected_sections]
  rw [hsel]
  unfold infer_sections
  rw [List.getLast?_concat]

/-- C5 witness: inference with no resume data and no section list. -/
theorem c5_witness :
    (((create_plan "b5" none none "modern" none).tasks.filter
        (fun t => t.type == TaskType.SECTION)).map (fun t => t.id)).getLast?
      = some "contact" :=
  c5_inferred_last_contact "b5" none none "modern" none (Or.inl rfl)

end DigitalPortfolio
